import Mathlib

/-!
Verification of the epub-summarize pipeline (`src/esum/__main__.py`).

The program reads an EPUB, asks a generative model for the chapter
boundaries (a JSON array of name/documents records, possibly wrapped in a
code fence), assembles each chapter's text by looking up and extracting
each referenced document, summarizes each chapter with a second set of
model calls, renders a Markdown report, and finally writes the report to a
file or prints it to stdout.

The embedding below is a direct translation of `main` and `get_content`
from `src/esum/__main__.py`.  External collaborators (the generative
model, the EPUB item lookup `get_item_with_href`, and the
`trafilatura.extract` text extractor) are passed in as functions.  The
run is modelled as a pure function returning the trace of observable
effects (model calls, document lookups, extractor invocations, prints and
file writes) together with an `Except` value: Python exceptions become
`Except.error` outcomes carrying the corresponding error constructor.
-/

/-- JSON values as produced by Python's `json.loads`.  Numbers keep their
source lexeme (the claims under verification never inspect numeric
values, only the structural shape of the data). -/
inductive Json where
  | null : Json
  | bool (b : Bool) : Json
  | num (lexeme : String) : Json
  | str (s : String) : Json
  | arr (elems : List Json) : Json
  | obj (fields : List (String × Json)) : Json

/-- The Python exceptions the pipeline can raise, by site.
`jsonDecodeError` is `json.JSONDecodeError` from `json.loads` (the
`MalformedModelOutput` condition of the spec); `typeError` covers the
`TypeError`s from iterating or subscripting a value of the wrong type and
from concatenating `None` onto a string; `keyError` carries the missing
key; `attributeError` is the payload-free
`AttributeError: 'NoneType' object has no attribute 'get_content'`
raised in `get_content` when `get_item_with_href` returns `None`;
`modelCallFailure` stands for an exception escaping a
`generate_content` call. -/
inductive PyErr where
  | jsonDecodeError : PyErr
  | typeError : PyErr
  | keyError (k : String) : PyErr
  | attributeError : PyErr
  | modelCallFailure : PyErr

/-- Observable effects of a run, in order of occurrence:
the boundary-resolution model call, the per-chapter summarization model
calls, the `get_item_with_href` lookups and `trafilatura.extract`
invocations inside `get_content` (tagged with the document reference
being processed), and the final output actions (`print` adds a newline
to each printed string; a file write replaces the file content). -/
inductive Effect where
  | boundaryModelCall (prompt : String) : Effect
  | summarizeModelCall (prompt : String) : Effect
  | lookupCall (ref : Json) : Effect
  | extractCall (ref : Json) : Effect
  | printLine (s : String) : Effect
  | writeFile (path : String) (content : String) : Effect

/-- Output effects: the only effects that put report text on stdout or
into the output file. -/
def Effect.isOutput : Effect → Bool
  | .printLine _ => true
  | .writeFile _ _ => true
  | _ => false

/-- Summarizer model calls. -/
def Effect.isSummarizeCall : Effect → Bool
  | .summarizeModelCall _ => true
  | _ => false

/-- Text-extractor (`trafilatura.extract`) invocations. -/
def Effect.isExtractCall : Effect → Bool
  | .extractCall _ => true
  | _ => false

/-- Document lookups (`book.get_item_with_href`). -/
def Effect.isLookupCall : Effect → Bool
  | .lookupCall _ => true
  | _ => false

/-! ## A model of `json.loads`

Python's `json.loads` with default settings: JSON values with strict
strings (unescaped control characters rejected), `NaN` / `Infinity` /
`-Infinity` accepted as numbers, objects keeping insertion order with a
duplicate key overwriting the value in place, and the whole input
(modulo surrounding JSON whitespace) consumed.  The parser is written
with a fuel argument; `json_loads` supplies ample fuel, so fuel
exhaustion is unreachable on the inputs considered here. -/

/-- JSON whitespace: space, tab, newline, carriage return. -/
def jsonWs (c : Char) : Bool :=
  c = ' ' || c = '\t' || c = '\n' || c = '\x0d'

/-- Drop leading JSON whitespace. -/
def skipWs : List Char → List Char
  | [] => []
  | c :: cs => if jsonWs c then skipWs cs else c :: cs

/-- Value of a hexadecimal digit. -/
def hexVal (c : Char) : Option Nat :=
  if '0' ≤ c ∧ c ≤ '9' then some (c.toNat - '0'.toNat)
  else if 'a' ≤ c ∧ c ≤ 'f' then some (c.toNat - 'a'.toNat + 10)
  else if 'A' ≤ c ∧ c ≤ 'F' then some (c.toNat - 'A'.toNat + 10)
  else none

/-- Read exactly four hex digits. -/
def hex4 : List Char → Option (Nat × List Char)
  | a :: b :: c :: d :: rest => do
    let va ← hexVal a
    let vb ← hexVal b
    let vc ← hexVal c
    let vd ← hexVal d
    pure (((va * 16 + vb) * 16 + vc) * 16 + vd, rest)
  | _ => none

/-- If `p` is a prefix of `s`, drop it, else fail. -/
def dropLit (p s : List Char) : Option (List Char) :=
  if p.isPrefixOf s then some (s.drop p.length) else none

/-- Longest leading run of decimal digits, with the rest. -/
def digitSpan : List Char → List Char × List Char
  | [] => ([], [])
  | c :: cs =>
    if c.isDigit then
      let (d, r) := digitSpan cs
      (c :: d, r)
    else ([], c :: cs)

/-- Integer part of a JSON number: a single `0`, or a nonzero digit
followed by more digits. -/
def numIntPart : List Char → Option (List Char × List Char)
  | [] => none
  | c :: cs =>
    if c = '0' then some (['0'], cs)
    else if c.isDigit then
      let (d, r) := digitSpan cs
      some (c :: d, r)
    else none

/-- Optional fraction part `.digits` (taken only when well formed, as in
the `json` module's number regex). -/
def numFracPart (cs : List Char) : List Char × List Char :=
  match cs with
  | '.' :: rest =>
    match digitSpan rest with
    | ([], _) => ([], cs)
    | (d, r) => ('.' :: d, r)
  | _ => ([], cs)

/-- Optional exponent part `[eE][+-]?digits` (taken only when well
formed). -/
def numExpPart (cs : List Char) : List Char × List Char :=
  match cs with
  | e :: rest =>
    if e = 'e' ∨ e = 'E' then
      match rest with
      | s :: rest2 =>
        if s = '+' ∨ s = '-' then
          match digitSpan rest2 with
          | ([], _) => ([], cs)
          | (d, r) => (e :: s :: d, r)
        else
          match digitSpan rest with
          | ([], _) => ([], cs)
          | (d, r) => (e :: d, r)
      | [] => ([], cs)
    else ([], cs)
  | [] => ([], cs)

/-- Parse a JSON number starting at `cs` (an optional minus sign was not
yet consumed); returns its lexeme. -/
def parseNumber (cs : List Char) : Option (String × List Char) :=
  match cs with
  | '-' :: rest => do
    let (ip, r1) ← numIntPart rest
    let (fp, r2) := numFracPart r1
    let (ep, r3) := numExpPart r2
    pure (String.mk ('-' :: (ip ++ fp ++ ep)), r3)
  | _ => do
    let (ip, r1) ← numIntPart cs
    let (fp, r2) := numFracPart r1
    let (ep, r3) := numExpPart r2
    pure (String.mk (ip ++ fp ++ ep), r3)

/-- Scalar-value check used for `\uXXXX` escapes: Lean's `Char` cannot
hold lone surrogates, which CPython's `json` tolerates; a lone surrogate
therefore fails the parse here.  No claim exercises that corner. -/
def isScalarCode (n : Nat) : Bool :=
  n < 0xd800 || (0xe000 ≤ n && n < 0x110000)

/-- Body of a JSON string, after the opening quote; strict mode, with the
standard escapes and surrogate-pair handling for `\uXXXX`. -/
def parseStrBody : Nat → List Char → List Char → Option (String × List Char)
  | 0, _, _ => none
  | _ + 1, _, [] => (none : Option (String × List Char))
  | fuel + 1, acc, c :: rest =>
    if c = '"' then some (String.mk acc.reverse, rest)
    else if c = '\\' then
      match rest with
      | [] => none
      | e :: rest2 =>
        if e = '"' then parseStrBody fuel ('"' :: acc) rest2
        else if e = '\\' then parseStrBody fuel ('\\' :: acc) rest2
        else if e = '/' then parseStrBody fuel ('/' :: acc) rest2
        else if e = 'b' then parseStrBody fuel ('\x08' :: acc) rest2
        else if e = 'f' then parseStrBody fuel ('\x0c' :: acc) rest2
        else if e = 'n' then parseStrBody fuel ('\n' :: acc) rest2
        else if e = 'r' then parseStrBody fuel ('\x0d' :: acc) rest2
        else if e = 't' then parseStrBody fuel ('\t' :: acc) rest2
        else if e = 'u' then
          match hex4 rest2 with
          | none => none
          | some (n, rest3) =>
            if n < 0xd800 ∨ 0xe000 ≤ n then
              parseStrBody fuel (Char.ofNat n :: acc) rest3
            else if n < 0xdc00 then
              match rest3 with
              | '\\' :: 'u' :: rest4 =>
                match hex4 rest4 with
                | none => none
                | some (lo, rest5) =>
                  if 0xdc00 ≤ lo ∧ lo < 0xe000 then
                    let code := 0x10000 + (n - 0xd800) * 0x400 + (lo - 0xdc00)
                    parseStrBody fuel (Char.ofNat code :: acc) rest5
                  else none
              | _ => none
            else none
        else none
    else if c.toNat < 32 then none
    else parseStrBody fuel (c :: acc) rest

/-- Insert a key/value pair into an object, Python-`dict` style: a
duplicate key overwrites the value at the key's original position. -/
def objInsert (k : String) (v : Json) : List (String × Json) → List (String × Json)
  | [] => [(k, v)]
  | (k0, v0) :: fs => if k0 = k then (k0, v) :: fs else (k0, v0) :: objInsert k v fs

mutual

/-- Parse one JSON value (leading whitespace allowed). -/
def parseValue : Nat → List Char → Option (Json × List Char)
  | 0, _ => none
  | fuel + 1, cs =>
    match skipWs cs with
    | [] => none
    | c :: rest =>
      if c = 'n' then
        match dropLit ['u', 'l', 'l'] rest with
        | some r => some (Json.null, r)
        | none => none
      else if c = 't' then
        match dropLit ['r', 'u', 'e'] rest with
        | some r => some (Json.bool true, r)
        | none => none
      else if c = 'f' then
        match dropLit ['a', 'l', 's', 'e'] rest with
        | some r => some (Json.bool false, r)
        | none => none
      else if c = 'N' then
        match dropLit ['a', 'N'] rest with
        | some r => some (Json.num "NaN", r)
        | none => none
      else if c = 'I' then
        match dropLit ['n', 'f', 'i', 'n', 'i', 't', 'y'] rest with
        | some r => some (Json.num "Infinity", r)
        | none => none
      else if c = '"' then
        match parseStrBody (fuel + 1) [] rest with
        | some (s, r) => some (Json.str s, r)
        | none => none
      else if c = '[' then
        match skipWs rest with
        | ']' :: r => some (Json.arr [], r)
        | other => parseArrItems fuel [] other
      else if c = '\x7b' then
        match skipWs rest with
        | '\x7d' :: r => some (Json.obj [], r)
        | other => parseObjItems fuel [] other
      else if c = '-' then
        if (dropLit ['I', 'n', 'f', 'i', 'n', 'i', 't', 'y'] rest).isSome then
          some (Json.num "-Infinity", (dropLit ['I', 'n', 'f', 'i', 'n', 'i', 't', 'y'] rest).getD [])
        else
          match parseNumber (c :: rest) with
          | some (lx, r) => some (Json.num lx, r)
          | none => none
      else
        match parseNumber (c :: rest) with
        | some (lx, r) => some (Json.num lx, r)
        | none => none

/-- Parse the remaining items of a non-empty array (positioned at the
start of the next element). -/
def parseArrItems : Nat → List Json → List Char → Option (Json × List Char)
  | 0, _, _ => none
  | fuel + 1, acc, cs =>
    match parseValue fuel cs with
    | none => none
    | some (v, rest) =>
      match skipWs rest with
      | ',' :: r => parseArrItems fuel (v :: acc) r
      | ']' :: r => some (Json.arr (acc.reverse ++ [v]), r)
      | _ => none

/-- Parse the remaining members of a non-empty object (positioned at the
start of the next `"key": value` pair). -/
def parseObjItems : Nat → List (String × Json) → List Char → Option (Json × List Char)
  | 0, _, _ => none
  | fuel + 1, acc, cs =>
    match skipWs cs with
    | '"' :: rest =>
      match parseStrBody (fuel + 1) [] rest with
      | none => none
      | some (k, r1) =>
        match skipWs r1 with
        | ':' :: r2 =>
          match parseValue fuel r2 with
          | none => none
          | some (v, r3) =>
            match skipWs r3 with
            | ',' :: r4 => parseObjItems fuel (objInsert k v acc) r4
            | '\x7d' :: r4 => some (Json.obj (objInsert k v acc), r4)
            | _ => none
        | _ => none
    | _ => none

end

/-- `json.loads`: parse the whole input as one JSON value; `none` models
a raised `json.JSONDecodeError`. -/
def json_loads (s : String) : Option Json :=
  match parseValue (2 * s.data.length + 4) s.data with
  | none => none
  | some (v, rest) => if skipWs rest = [] then some v else none

/-! ## Fence stripping (line 76 of `src/esum/__main__.py`)

`extract_chapters_res.text.removeprefix("```json").removesuffix("```")`:
drop a leading literal ` ```json ` if present, then a trailing ` ``` `
if present.  Modelled on the character list underlying the string. -/

/-- Python `str.removeprefix`. -/
def removePre (p s : List Char) : List Char :=
  if p.isPrefixOf s then s.drop p.length else s

/-- Python `str.removesuffix`. -/
def removeSuf (p s : List Char) : List Char :=
  if p.isSuffixOf s then s.take (s.length - p.length) else s

/-- The exact stripping applied to the boundary-resolution response:
`.removeprefix("```json").removesuffix("```")`. -/
def stripFence (s : String) : String :=
  String.mk (removeSuf "```".data (removePre "```json".data s.data))

/-! ## Python dynamic semantics for the values coming out of `json.loads`

`main` iterates the parsed response (`for c in chapters`, in the two list
comprehensions of lines 80-81) and subscripts its elements (`c["name"]`,
`c["documents"]`), and `get_content` iterates a chapter's `documents`
value.  These operations are dynamically typed in Python; the functions
below reproduce their behaviour on every `json.loads` result. -/

/-- Python iteration `for x in v`: a list yields its elements, a dict its
keys (insertion order), a string its one-character substrings; `None`,
booleans and numbers raise `TypeError`. -/
def pyIter : Json → Except PyErr (List Json)
  | .arr xs => .ok xs
  | .obj fields => .ok (fields.map fun f => Json.str f.1)
  | .str s => .ok (s.data.map fun c => Json.str (String.mk [c]))
  | _ => .error .typeError

/-- Python subscripting `v[k]` with a string key `k`: only a dict
accepts a string subscript (raising `KeyError k` when absent); strings
and lists require integer indices and everything else is not
subscriptable, all raising `TypeError`. -/
def pySubscript (v : Json) (k : String) : Except PyErr Json :=
  match v with
  | .obj fields =>
    match fields.find? (fun f => f.1 = k) with
    | some f => .ok f.2
    | none => .error (.keyError k)
  | _ => .error .typeError

mutual

/-- Python `repr` of a `json.loads` value, used inside containers by
`str`.  String escaping is approximated (backslash, quote and the common
control characters); no claim evaluates `repr` of a container. -/
def pyRepr : Json → String
  | .null => "None"
  | .bool true => "True"
  | .bool false => "False"
  | .num lx => lx
  | .str s => "\x27" ++ String.mk (pyReprEscape s.data) ++ "\x27"
  | .arr xs => "[" ++ String.intercalate ", " (pyReprList xs) ++ "]"
  | .obj fs => "\x7b" ++ String.intercalate ", " (pyReprFields fs) ++ "\x7d"

/-- `repr` of each element of a list. -/
def pyReprList : List Json → List String
  | [] => []
  | x :: xs => pyRepr x :: pyReprList xs

/-- `repr` of each `key: value` member of a dict. -/
def pyReprFields : List (String × Json) → List String
  | [] => []
  | (k, v) :: fs =>
    ("\x27" ++ String.mk (pyReprEscape k.data) ++ "\x27: " ++ pyRepr v) :: pyReprFields fs

/-- Escaping inside a Python string `repr`. -/
def pyReprEscape : List Char → List Char
  | [] => []
  | c :: cs =>
    if c = '\\' then '\\' :: '\\' :: pyReprEscape cs
    else if c = '\x27' then '\\' :: '\x27' :: pyReprEscape cs
    else if c = '\n' then '\\' :: 'n' :: pyReprEscape cs
    else if c = '\x0d' then '\\' :: 'r' :: pyReprEscape cs
    else if c = '\t' then '\\' :: 't' :: pyReprEscape cs
    else c :: pyReprEscape cs

end

/-- Python `str` of a `json.loads` value, as interpolated by an
f-string: a string is itself, everything else falls back to `repr`-style
rendering (`str(3) = "3"`, `str(True) = "True"`, `str(None) = "None"`,
containers via `repr`). -/
def pyStr : Json → String
  | .str s => s
  | v => pyRepr v

/-! ## `get_content` (lines 11-18 of `src/esum/__main__.py`)

```python
def get_content(book: EpubBook, documents: list[str]) -> str:
    join_content = ""
    for ref in documents:
        doc: EpubHtml = book.get_item_with_href(ref)
        html = doc.get_content()
        content = trafilatura.extract(html)
        join_content += content
    return join_content
```

`book.get_item_with_href` scans the book's items for one whose name
equals `ref` and returns `None` on no match (a non-string `ref` never
equals an item name); `doc.get_content()` on that `None` raises the
payload-free `AttributeError`; `trafilatura.extract` may return `None`,
in which case `join_content += None` raises `TypeError`.  The lookup
(by href) and the extractor are the external collaborators, passed as
functions. -/

/-- `book.get_item_with_href(ref)` applied to a `json.loads` value:
equality with an item href can only hold for a string. -/
def getItemWithHref (lookup : String → Option String) : Json → Option String
  | .str s => lookup s
  | _ => none

/-- The loop of `get_content`, with the accumulated text and the effect
trace so far; returns the trace of lookups/extractions together with the
outcome. -/
def getContentLoop (lookup : String → Option String)
    (extract : String → Option String) :
    List Json → String → List Effect → List Effect × Except PyErr String
  | [], acc, tr => (tr, .ok acc)
  | ref :: rest, acc, tr =>
    let tr1 := tr ++ [Effect.lookupCall ref]
    match getItemWithHref lookup ref with
    | none => (tr1, .error .attributeError)
    | some html =>
      let tr2 := tr1 ++ [Effect.extractCall ref]
      match extract html with
      | none => (tr2, .error .typeError)
      | some content => getContentLoop lookup extract rest (acc ++ content) tr2

/-- `get_content(book, documents)`: iterate the `documents` value and
concatenate the extracted text of each referenced document, with no
separator. -/
def get_content (lookup : String → Option String)
    (extract : String → Option String) (documents : Json) :
    List Effect × Except PyErr String :=
  match pyIter documents with
  | .error e => ([], .error e)
  | .ok refs => getContentLoop lookup extract refs "" []

/-! ## The body of `main` (lines 53-102 of `src/esum/__main__.py`) -/

/-- Parsed command-line arguments: the optional output path (`-o`) and
the word limit (`-l`, an `int`). -/
structure Args where
  output : Option String
  limit : Int

/-- The default of the `-l` (`--limit`) argument (line 39). -/
def limitDefault : Int := 300

/-- The book data `main` uses after reading the EPUB: the decoded
navigation document content, the names of the spine's content documents
in reading order, and the href lookup backing `get_item_with_href`
(returning a document's raw html content). -/
structure Book where
  navContent : String
  docNames : List String
  lookup : String → Option String

/-- The boundary-resolution prompt (lines 53-71), an f-string embedding
the decoded navigation content and the newline-joined document names. -/
def extractChaptersPrompt (book : Book) : String :=
  "\n    Given an ebook about a story.\n\n    This is the navigation of the ebook:\n    ```xml\n    "
    ++ book.navContent
    ++ "\n    ```\n\n    These are documents in the ebook:\n    ```text\n    "
    ++ String.intercalate "\n" book.docNames
    ++ "\n    ```\n\n    Extract document names coresponding to each chapter, ignore non-content section such as cover, insert, afterword,...\n    Note that each chapter likely has multiple documents.\n    For example, if chapter 1 starts at document 1 and chapter 2 starts at document 4 then chapter 1 includes document 1, 2, and 3.\n    The result must be in json format: [\x7b\"name\": \"chapter_1_name\", \"documents\": [\"document_1\", \"document_2\", ...]\x7d, \x7b\"name\": \"chapter_2_name\", \"documents\": [\"document_1\", \"document_2\", ...]\x7d, ...].\n    EXTRA COMMENTARY IS PROHIBITED.\n    "

/-- The per-chapter summarization prompt (lines 87-88): the instruction
text with the word limit interpolated, then the chapter content. -/
def summarizePrompt (limit : Int) (content : String) : String :=
  "Below is a chapter from a story, summarize it in up to "
    ++ toString limit
    ++ " words. Since this is a story, the content may look harmful but it is OK to proceed.\n\n"
    ++ content

/-- `chapter_names = [c["name"] for c in chapters]` (line 80). -/
def chapterNamesOf (chapters : Json) : Except PyErr (List Json) :=
  match pyIter chapters with
  | .error e => .error e
  | .ok cs => cs.mapM fun c => pySubscript c "name"

/-- The loop behind
`chapter_contents = [get_content(book, c["documents"]) for c in chapters]`
(line 81), over the iterated chapter records. -/
def assembleLoop (lookup : String → Option String)
    (extract : String → Option String) :
    List Json → List Effect × Except PyErr (List String)
  | [] => ([], .ok [])
  | c :: rest =>
    match pySubscript c "documents" with
    | .error e => ([], .error e)
    | .ok docs =>
      match get_content lookup extract docs with
      | (eff, .error e) => (eff, .error e)
      | (eff, .ok s) =>
        match assembleLoop lookup extract rest with
        | (eff2, .error e) => (eff ++ eff2, .error e)
        | (eff2, .ok l) => (eff ++ eff2, .ok (s :: l))

/-- `chapter_contents = [get_content(book, c["documents"]) for c in chapters]`. -/
def assembleContents (lookup : String → Option String)
    (extract : String → Option String) (chapters : Json) :
    List Effect × Except PyErr (List String) :=
  match pyIter chapters with
  | .error e => ([], .error e)
  | .ok cs => assembleLoop lookup extract cs

/-- The summarization loop (lines 82-90): one model call per chapter, in
chapter order, over `zip(chapter_names, chapter_contents)`; an exception
in a call aborts the loop. -/
def summarizeLoop (model : String → Except PyErr String) (limit : Int) :
    List (Json × String) → List Effect × Except PyErr (List String)
  | [] => ([], .ok [])
  | (_, c) :: rest =>
    let p := summarizePrompt limit c
    match model p with
    | .error e => ([.summarizeModelCall p], .error e)
    | .ok r =>
      match summarizeLoop model limit rest with
      | (eff, .error e) => (.summarizeModelCall p :: eff, .error e)
      | (eff, .ok l) => (.summarizeModelCall p :: eff, .ok (r :: l))

/-- The report-accumulation loop (lines 92-94):
`summary += f"## \x7bname\x7d\n\n\x7bcontent\x7d\n\n"` over
`zip(chapter_names, summarized_chapters)`. -/
def renderReportLoop : List (Json × String) → String → String
  | [], acc => acc
  | (name, content) :: rest, acc =>
    renderReportLoop rest (acc ++ "## " ++ pyStr name ++ "\n\n" ++ content ++ "\n\n")

/-- The assembled report text. -/
def renderReport (pairs : List (Json × String)) : String :=
  renderReportLoop pairs ""

/-- The output step (lines 96-102): write the report to the output file
when a path was given, else print a separator line, a `# Summary`
heading and the report to stdout. -/
def emitOutput (output : Option String) (summary : String) : List Effect :=
  match output with
  | some path => [.writeFile path summary]
  | none =>
    [.printLine "--------------------", .printLine "# Summary", .printLine summary]

/-- Lines 80-102 of `main`: everything after the boundary response has
been parsed, applied to the parsed chapters value. -/
def pipeline (model : String → Except PyErr String)
    (lookup : String → Option String) (extract : String → Option String)
    (limit : Int) (output : Option String) (chapters : Json) :
    List Effect × Except PyErr String :=
  match chapterNamesOf chapters with
  | .error e => ([], .error e)
  | .ok names =>
    match assembleContents lookup extract chapters with
    | (aeff, .error e) => (aeff, .error e)
    | (aeff, .ok contents) =>
      match summarizeLoop model limit (names.zip contents) with
      | (seff, .error e) => (aeff ++ seff, .error e)
      | (seff, .ok sums) =>
        (aeff ++ seff ++ emitOutput output (renderReport (names.zip sums)),
          .ok (renderReport (names.zip sums)))

/-- The run of `main` after the EPUB has been read (lines 53-102): the
boundary-resolution model call, fence stripping and `json.loads` on its
response text, then the chapter pipeline.  Returns the effect trace and
either the report text (success) or the Python exception that aborted
the run. -/
def runMain (model : String → Except PyErr String) (book : Book)
    (extract : String → Option String) (args : Args) :
    List Effect × Except PyErr String :=
  let prompt := extractChaptersPrompt book
  match model prompt with
  | .error e => ([.boundaryModelCall prompt], .error e)
  | .ok resp =>
    match json_loads (stripFence resp) with
    | none => ([.boundaryModelCall prompt], .error .jsonDecodeError)
    | some chapters =>
      (.boundaryModelCall prompt ::
          (pipeline model book.lookup extract args.limit args.output chapters).1,
        (pipeline model book.lookup extract args.limit args.output chapters).2)

/-! ## Spec-side definition for the report layout

The spec (§4.4, §8) describes the report as each chapter name rendered
as a heading, followed by that chapter's summary body, separated by
blank lines, in input order, concatenated.  This definition follows
those words; the refinement theorem for the report compares it with
`renderReport`, which is translated from the code. -/

/-- The report as the spec describes it: one `## name` heading block per
chapter, each followed by its summary, heading and body separated by
blank lines, blocks concatenated in input order. -/
def reportBlocksSpec : List (String × String) → String
  | [] => ""
  | (n, s) :: rest => "## " ++ n ++ "\n\n" ++ s ++ "\n\n" ++ reportBlocksSpec rest

/-! ## Concrete scenario data used by witnesses and counterexamples -/

/-- A one-document book: the corpus contains only `d0`. -/
def book0 : Book where
  navContent := "<nav/>"
  docNames := ["d0"]
  lookup := fun h => if h = "d0" then some "<p>hi</p>" else none

/-- A text extractor that extracts every document to `"HI "`. -/
def extract0 : String → Option String := fun _ => some "HI "

/-- Arguments: print to stdout, default word limit. -/
def args0 : Args where
  output := none
  limit := 300

/-- A boundary response placing `d0` in a single chapter, wrapped in the
` ```json ` fence the model tends to produce. -/
def resp1 : String := "```json\n[\x7b\"name\": \"Ch1\", \"documents\": [\"d0\"]\x7d]\n```"

/-- A model that answers the boundary prompt with `resp1` and any
summarization prompt with `SUM`. -/
def model1 : String → Except PyErr String :=
  fun p => if p = extractChaptersPrompt book0 then .ok resp1 else .ok "SUM"

/-- A boundary response whose chapter references `d9`, absent from
`book0`'s corpus. -/
def respD9 : String := "[\x7b\"name\": \"Ch1\", \"documents\": [\"d9\"]\x7d]"

/-- A boundary response whose chapter `Other` references `d7`, also
absent from the corpus. -/
def respD7 : String := "[\x7b\"name\": \"Other\", \"documents\": [\"d7\"]\x7d]"

/-- Valid structured chapter data (an array of name/documents records),
not wrapped in any fence. -/
def innerJson1 : String := "[\x7b\"name\": \"Ch1\", \"documents\": [\"d0\"]\x7d]"

/-- `innerJson1` wrapped in bare ` ``` ` fence markers (no `json` tag). -/
def respBareFence : String := "```\n" ++ innerJson1 ++ "\n```"

/-- A corpus lookup for the three-document associativity scenario. -/
def lookup3 : String → Option String := fun h =>
  if h = "d1" then some "h1" else if h = "d2" then some "h2"
  else if h = "d3" then some "h3" else none

/-- An extractor for the three-document associativity scenario. -/
def extract3 : String → Option String := fun h =>
  if h = "h1" then some "A" else if h = "h2" then some "B"
  else if h = "h3" then some "C" else none

/-! ## Structural lemmas -/

set_option maxRecDepth 100000

theorem isPrefixOf_self_append (p x : List Char) : p.isPrefixOf (p ++ x) = true := by
  induction p with
  | nil => simp [List.isPrefixOf]
  | cons a as ih => simp [List.isPrefixOf, ih]

theorem isSuffixOf_append_self (q x : List Char) : q.isSuffixOf (x ++ q) = true := by
  simp only [List.isSuffixOf, List.reverse_append]
  exact isPrefixOf_self_append q.reverse x.reverse

theorem removePre_append (p x : List Char) : removePre p (p ++ x) = x := by
  unfold removePre
  rw [if_pos, List.drop_left]
  exact isPrefixOf_self_append p x

theorem removeSuf_append (q x : List Char) : removeSuf q (x ++ q) = x := by
  unfold removeSuf
  rw [if_pos, List.length_append, Nat.add_sub_cancel, List.take_left]
  exact isSuffixOf_append_self q x

/-- Wrapping any text in the exact ` ```json ... ``` ` fence is undone by
the stripping of line 76. -/
theorem stripFence_wrap (s : String) : stripFence ("```json" ++ s ++ "```") = s := by
  unfold stripFence
  rw [String.data_append, String.data_append, List.append_assoc,
    removePre_append, removeSuf_append]

theorem renderReportLoop_shift (ps : List (Json × String)) (acc : String) :
    renderReportLoop ps acc = acc ++ renderReportLoop ps "" := by
  induction ps generalizing acc with
  | nil => simp [renderReportLoop]
  | cons p rest ih =>
    obtain ⟨n, c⟩ := p
    simp only [renderReportLoop]
    rw [ih, ih ("" ++ "## " ++ pyStr n ++ "\n\n" ++ c ++ "\n\n")]
    simp [String.append_assoc]

theorem renderReport_cons (n : Json) (c : String) (rest : List (Json × String)) :
    renderReport ((n, c) :: rest)
      = "## " ++ pyStr n ++ "\n\n" ++ c ++ "\n\n" ++ renderReport rest := by
  unfold renderReport
  simp only [renderReportLoop]
  rw [renderReportLoop_shift]
  simp [String.append_assoc]

theorem getContentLoop_events (lookup extract : String → Option String)
    (docs : List Json) (acc : String) (tr : List Effect) :
    ∀ e ∈ (getContentLoop lookup extract docs acc tr).1,
      e ∈ tr ∨ (∃ r, e = Effect.lookupCall r) ∨ (∃ r, e = Effect.extractCall r) := by
  induction docs generalizing acc tr with
  | nil => intro e he; exact Or.inl he
  | cons ref rest ih =>
    intro e he
    cases h1 : getItemWithHref lookup ref with
    | none =>
      simp only [getContentLoop, h1] at he
      rcases List.mem_append.mp he with h | h
      · exact Or.inl h
      · rcases List.mem_singleton.mp h with rfl
        exact Or.inr (Or.inl ⟨ref, rfl⟩)
    | some html =>
      cases h2 : extract html with
      | none =>
        simp only [getContentLoop, h1, h2] at he
        rcases List.mem_append.mp he with h | h
        · rcases List.mem_append.mp h with h' | h'
          · exact Or.inl h'
          · rcases List.mem_singleton.mp h' with rfl
            exact Or.inr (Or.inl ⟨ref, rfl⟩)
        · rcases List.mem_singleton.mp h with rfl
          exact Or.inr (Or.inr ⟨ref, rfl⟩)
      | some content =>
        simp only [getContentLoop, h1, h2] at he
        rcases ih (acc ++ content) (tr ++ [Effect.lookupCall ref] ++ [Effect.extractCall ref]) e he with h | h
        · rcases List.mem_append.mp h with h' | h'
          · rcases List.mem_append.mp h' with h'' | h''
            · exact Or.inl h''
            · rcases List.mem_singleton.mp h'' with rfl
              exact Or.inr (Or.inl ⟨ref, rfl⟩)
          · rcases List.mem_singleton.mp h' with rfl
            exact Or.inr (Or.inr ⟨ref, rfl⟩)
        · exact Or.inr h

theorem get_content_events (lookup extract : String → Option String) (documents : Json) :
    ∀ e ∈ (get_content lookup extract documents).1,
      (∃ r, e = Effect.lookupCall r) ∨ (∃ r, e = Effect.extractCall r) := by
  intro e he
  unfold get_content at he
  cases h : pyIter documents with
  | error er => simp only [h] at he; simp at he
  | ok refs =>
    simp only [h] at he
    rcases getContentLoop_events lookup extract refs "" [] e he with h' | h'
    · simp at h'
    · exact h'

theorem assembleLoop_events (lookup extract : String → Option String) (cs : List Json) :
    ∀ e ∈ (assembleLoop lookup extract cs).1,
      (∃ r, e = Effect.lookupCall r) ∨ (∃ r, e = Effect.extractCall r) := by
  induction cs with
  | nil => intro e he; simp [assembleLoop] at he
  | cons c rest ih =>
    intro e he
    cases h1 : pySubscript c "documents" with
    | error er => simp only [assembleLoop, h1] at he; simp at he
    | ok docs =>
      rcases h2 : get_content lookup extract docs with ⟨eff, res⟩
      cases res with
      | error er =>
        simp only [assembleLoop, h1, h2] at he
        exact get_content_events lookup extract docs e (h2 ▸ he)
      | ok s =>
        rcases h3 : assembleLoop lookup extract rest with ⟨eff2, res2⟩
        cases res2 with
        | error er =>
          simp only [assembleLoop, h1, h2, h3] at he
          rcases List.mem_append.mp he with h | h
          · exact get_content_events lookup extract docs e (by rw [h2]; exact h)
          · exact ih e (by rw [h3]; exact h)
        | ok l =>
          simp only [assembleLoop, h1, h2, h3] at he
          rcases List.mem_append.mp he with h | h
          · exact get_content_events lookup extract docs e (by rw [h2]; exact h)
          · exact ih e (by rw [h3]; exact h)

theorem assembleContents_events (lookup extract : String → Option String) (chapters : Json) :
    ∀ e ∈ (assembleContents lookup extract chapters).1,
      (∃ r, e = Effect.lookupCall r) ∨ (∃ r, e = Effect.extractCall r) := by
  intro e he
  unfold assembleContents at he
  cases h : pyIter chapters with
  | error er => simp only [h] at he; simp at he
  | ok cs => exact assembleLoop_events lookup extract cs e (by simpa only [h] using he)

theorem summarizeLoop_events (model : String → Except PyErr String) (limit : Int)
    (ps : List (Json × String)) :
    ∀ e ∈ (summarizeLoop model limit ps).1,
      ∃ c, e = Effect.summarizeModelCall (summarizePrompt limit c) := by
  induction ps with
  | nil => intro e he; simp [summarizeLoop] at he
  | cons p rest ih =>
    obtain ⟨n, c⟩ := p
    intro e he
    cases h1 : model (summarizePrompt limit c) with
    | error er =>
      simp only [summarizeLoop, h1] at he
      rcases List.mem_singleton.mp he with rfl
      exact ⟨c, rfl⟩
    | ok r =>
      rcases h2 : summarizeLoop model limit rest with ⟨eff, res⟩
      cases res with
      | error er =>
        simp only [summarizeLoop, h1, h2] at he
        rcases List.mem_cons.mp he with rfl | h
        · exact ⟨c, rfl⟩
        · exact ih e (by rw [h2]; exact h)
      | ok l =>
        simp only [summarizeLoop, h1, h2] at he
        rcases List.mem_cons.mp he with rfl | h
        · exact ⟨c, rfl⟩
        · exact ih e (by rw [h2]; exact h)

theorem emitOutput_events (output : Option String) (s : String) :
    ∀ e ∈ emitOutput output s, e.isOutput = true := by
  cases output with
  | some path =>
    intro e he
    rcases List.mem_singleton.mp he with rfl
    rfl
  | none =>
    intro e he
    rcases List.mem_cons.mp he with rfl | he
    · rfl
    rcases List.mem_cons.mp he with rfl | he
    · rfl
    rcases List.mem_singleton.mp he with rfl
    rfl

/-- On a failing pipeline the trace holds only document lookups,
extractor invocations and summarizer calls — never an output action. -/
theorem pipeline_error_events (model : String → Except PyErr String)
    (lookup extract : String → Option String) (limit : Int)
    (output : Option String) (chapters : Json) (er : PyErr) :
    (pipeline model lookup extract limit output chapters).2 = .error er →
    ∀ e ∈ (pipeline model lookup extract limit output chapters).1,
      (∃ r, e = Effect.lookupCall r) ∨ (∃ r, e = Effect.extractCall r)
        ∨ (∃ c, e = Effect.summarizeModelCall (summarizePrompt limit c)) := by
  intro hr e he
  unfold pipeline at hr he
  cases h1 : chapterNamesOf chapters with
  | error e1 => simp only [h1] at he; simp at he
  | ok names =>
    rcases h2 : assembleContents lookup extract chapters with ⟨aeff, cres⟩
    cases cres with
    | error e2 =>
      simp only [h1, h2] at he
      rcases assembleContents_events lookup extract chapters e (by rw [h2]; exact he)
        with h | h
      · exact Or.inl h
      · exact Or.inr (Or.inl h)
    | ok contents =>
      rcases h3 : summarizeLoop model limit (names.zip contents) with ⟨seff, sres⟩
      cases sres with
      | error e3 =>
        simp only [h1, h2, h3] at he
        rcases List.mem_append.mp he with h | h
        · rcases assembleContents_events lookup extract chapters e (by rw [h2]; exact h)
            with h' | h'
          · exact Or.inl h'
          · exact Or.inr (Or.inl h')
        · exact Or.inr (Or.inr
            (summarizeLoop_events model limit (names.zip contents) e (by rw [h3]; exact h)))
      | ok sums =>
        simp only [h1, h2, h3] at hr
        exact absurd hr (by simp)

/-- On a successful pipeline the trace is the non-output work followed by
exactly the output actions for the returned report. -/
theorem pipeline_ok_shape (model : String → Except PyErr String)
    (lookup extract : String → Option String) (limit : Int)
    (output : Option String) (chapters : Json) (s : String) :
    (pipeline model lookup extract limit output chapters).2 = .ok s →
    ∃ pre, (pipeline model lookup extract limit output chapters).1
        = pre ++ emitOutput output s ∧
      ∀ e ∈ pre,
        (∃ r, e = Effect.lookupCall r) ∨ (∃ r, e = Effect.extractCall r)
          ∨ (∃ c, e = Effect.summarizeModelCall (summarizePrompt limit c)) := by
  intro hr
  unfold pipeline at hr ⊢
  cases h1 : chapterNamesOf chapters with
  | error e1 => simp only [h1] at hr; exact absurd hr (by simp)
  | ok names =>
    rcases h2 : assembleContents lookup extract chapters with ⟨aeff, cres⟩
    cases cres with
    | error e2 => simp only [h1, h2] at hr; exact absurd hr (by simp)
    | ok contents =>
      rcases h3 : summarizeLoop model limit (names.zip contents) with ⟨seff, sres⟩
      cases sres with
      | error e3 => simp only [h1, h2, h3] at hr; exact absurd hr (by simp)
      | ok sums =>
        simp only [h1, h2, h3] at hr
        have hs : renderReport (names.zip sums) = s := by
          injection hr
        refine ⟨aeff ++ seff, ?_, ?_⟩
        · simp only [h1, h2, h3, hs]
        · intro e he
          rcases List.mem_append.mp he with h | h
          · rcases assembleContents_events lookup extract chapters e (by rw [h2]; exact h)
              with h' | h'
            · exact Or.inl h'
            · exact Or.inr (Or.inl h')
          · exact Or.inr (Or.inr
              (summarizeLoop_events model limit (names.zip contents) e (by rw [h3]; exact h)))

/-- Every summarizer call in the pipeline trace uses the summarization
prompt built from the run's word limit. -/
theorem pipeline_summarize_calls (model : String → Except PyErr String)
    (lookup extract : String → Option String) (limit : Int)
    (output : Option String) (chapters : Json) (p : String) :
    Effect.summarizeModelCall p ∈ (pipeline model lookup extract limit output chapters).1 →
    ∃ c, p = summarizePrompt limit c := by
  intro hm
  cases hr : (pipeline model lookup extract limit output chapters).2 with
  | error er =>
    rcases pipeline_error_events model lookup extract limit output chapters er hr _ hm
      with ⟨r, h⟩ | ⟨r, h⟩ | ⟨c, h⟩
    · exact absurd h (by simp)
    · exact absurd h (by simp)
    · exact ⟨c, by injection h⟩
  | ok s =>
    rcases pipeline_ok_shape model lookup extract limit output chapters s hr
      with ⟨pre, hpre, hmem⟩
    rw [hpre] at hm
    rcases List.mem_append.mp hm with h | h
    · rcases hmem _ h with ⟨r, h'⟩ | ⟨r, h'⟩ | ⟨c, h'⟩
      · exact absurd h' (by simp)
      · exact absurd h' (by simp)
      · exact ⟨c, by injection h'⟩
    · have := emitOutput_events output s _ h
      simp [Effect.isOutput] at this

/-! ## Claims -/

/-- C1 counterexample: the stripped response `\x7b\x7d` is a JSON object,
not an array of name/documents records — one of the malformed shapes the
claim lists — yet the run does not fail with a `MalformedModelOutput`
condition: `json.loads` accepts it, the two list comprehensions iterate
zero keys, and the run completes successfully with an empty report. -/
theorem c1_counterexample :
    json_loads (stripFence "\x7b\x7d") = some (Json.obj [])
    ∧ (runMain (fun _ => Except.ok "\x7b\x7d") book0 extract0 args0).2 = Except.ok "" :=
  ⟨rfl, rfl⟩

/-- C1 (amended): for every boundary-resolution response whose stripped
text is not parseable as JSON at all (plain prose, the empty string),
the run fails with the `json.JSONDecodeError` condition
(`MalformedModelOutput`) and the trace holds nothing but the boundary
model call — no content assembly, no summarization, no output.  Shape
validation beyond JSON parsing does not happen: a response that parses
as JSON but is not an array of records is not rejected at this step (see
the counterexample). -/
theorem c1_unparseable_fails_before_processing
    (model : String → Except PyErr String) (book : Book)
    (extract : String → Option String) (args : Args) (resp : String)
    (hm : model (extractChaptersPrompt book) = Except.ok resp)
    (hp : json_loads (stripFence resp) = none) :
    runMain model book extract args
      = ([Effect.boundaryModelCall (extractChaptersPrompt book)],
          Except.error PyErr.jsonDecodeError) := by
  simp only [runMain, hm, hp]

/-- C1 witness: a plain-prose response makes the run fail with the
JSON-decode condition before anything else happens. -/
theorem c1_witness :
    runMain (fun _ => Except.ok "This is plain prose.") book0 extract0 args0
      = ([Effect.boundaryModelCall (extractChaptersPrompt book0)],
          Except.error PyErr.jsonDecodeError) :=
  c1_unparseable_fails_before_processing (fun _ => Except.ok "This is plain prose.")
    book0 extract0 args0 "This is plain prose." rfl rfl

/-- C2 counterexample: `innerJson1` is valid structured chapter data (an
array of name/documents records) and `respBareFence` wraps it in plain
` ``` ` code-fence markers, but the stripping of line 76 only removes a
leading ` ```json ` marker, so the leading bare fence survives and the
run fails with the JSON-decode condition instead of parsing
successfully. -/
theorem c2_counterexample :
    json_loads innerJson1
      = some (Json.arr [Json.obj
          [("name", Json.str "Ch1"), ("documents", Json.arr [Json.str "d0"])]])
    ∧ (runMain (fun _ => Except.ok respBareFence) book0 extract0 args0).2
        = Except.error PyErr.jsonDecodeError :=
  ⟨rfl, rfl⟩

/-- C2 (amended): a response wrapped in exactly the markers the code
strips — a leading ` ```json ` and a trailing ` ``` ` — is stripped back
to its payload, so whenever the payload parses as JSON the
boundary-resolution parse succeeds with the same value. -/
theorem c2_fenced_json_parses (s : String) (v : Json)
    (h : json_loads s = some v) :
    json_loads (stripFence ("```json" ++ s ++ "```")) = some v := by
  rw [stripFence_wrap, h]

/-- C2 witness: the fenced empty array parses to the empty array. -/
theorem c2_witness :
    json_loads "[]" = some (Json.arr [])
    ∧ json_loads (stripFence ("```json" ++ "[]" ++ "```")) = some (Json.arr []) :=
  ⟨rfl, c2_fenced_json_parses "[]" (Json.arr []) rfl⟩

/-- C3 counterexample: two runs whose chapters reference different
missing identifiers (`d9` owned by chapter `Ch1`, `d7` owned by chapter
`Other`) fail with the identical, payload-free `AttributeError`
condition — the error value carries neither the missing identifier nor
the owning chapter name, so no `DocumentNotFound` condition naming them
exists.  The traces also show the failure arises at content-assembly
time: the lookup of the missing reference is the last event and no
summarizer call or output occurs. -/
theorem c3_counterexample :
    runMain (fun _ => Except.ok respD9) book0 extract0 args0
      = ([Effect.boundaryModelCall (extractChaptersPrompt book0),
          Effect.lookupCall (Json.str "d9")], Except.error PyErr.attributeError)
    ∧ runMain (fun _ => Except.ok respD7) book0 extract0 args0
      = ([Effect.boundaryModelCall (extractChaptersPrompt book0),
          Effect.lookupCall (Json.str "d7")], Except.error PyErr.attributeError) :=
  ⟨rfl, rfl⟩

/-- C3 (amended): for every chapter whose documents list reaches an
identifier with no corresponding document in the corpus (all earlier
documents extractable), content assembly of that chapter fails — at
assembly time, with no eager validation of the chapter list — but the
condition is the constant `AttributeError` of `doc.get_content()` on the
`None` lookup result, which names neither the identifier nor the
chapter. -/
theorem c3_missing_document_attribute_error
    (lookup extract : String → Option String) (pre : List Json) (ref : Json)
    (post : List Json)
    (hpre : ∀ d ∈ pre, ∃ h c, getItemWithHref lookup d = some h ∧ extract h = some c)
    (href : getItemWithHref lookup ref = none) :
    (get_content lookup extract (Json.arr (pre ++ ref :: post))).2
      = Except.error PyErr.attributeError := by
  have main : ∀ (l : List Json) (acc : String) (tr : List Effect),
      (∀ d ∈ l, ∃ h c, getItemWithHref lookup d = some h ∧ extract h = some c) →
      (getContentLoop lookup extract (l ++ ref :: post) acc tr).2
        = Except.error PyErr.attributeError := by
    intro l
    induction l with
    | nil =>
      intro acc tr _
      simp only [List.nil_append, getContentLoop, href]
    | cons d rest ih =>
      intro acc tr hAll
      obtain ⟨h, c, hd, hc⟩ := hAll d (List.mem_cons_self d rest)
      simp only [List.cons_append, getContentLoop, hd, hc]
      exact ih _ _ (fun d' hd' => hAll d' (List.mem_cons_of_mem d hd'))
  unfold get_content
  simp only [pyIter]
  exact main pre "" [] hpre

/-- C3 witness: a chapter listing the present document `d0` and then the
absent `d9` fails assembly with the attribute-error condition. -/
theorem c3_witness :
    (get_content book0.lookup extract0
        (Json.arr ([Json.str "d0"] ++ Json.str "d9" :: []))).2
      = Except.error PyErr.attributeError :=
  c3_missing_document_attribute_error book0.lookup extract0
    [Json.str "d0"] (Json.str "d9") []
    (by
      intro d hd
      rcases List.mem_singleton.mp hd with rfl
      exact ⟨"<p>hi</p>", "HI ", rfl, rfl⟩)
    rfl

/-- C4: for every non-empty list of chapter-name / summary pairs (names
being the strings the well-formed case produces), the rendered report is
exactly the spec's layout: each chapter's name as a `## ` heading
exactly once, followed by that chapter's summary body, heading and body
separated by blank lines, blocks concatenated in resolution order. -/
theorem c4_report_structure (pairs : List (String × String)) (_hne : pairs ≠ []) :
    renderReport (pairs.map fun p => (Json.str p.1, p.2)) = reportBlocksSpec pairs := by
  clear _hne
  induction pairs with
  | nil => rfl
  | cons p rest ih =>
    obtain ⟨n, s⟩ := p
    simp only [List.map, reportBlocksSpec]
    rw [renderReport_cons, ih]
    rfl

/-- C4 witness: the one-chapter report. -/
theorem c4_witness :
    ([("Ch1", "S1")] : List (String × String)) ≠ []
    ∧ renderReport ([("Ch1", "S1")].map fun p => (Json.str p.1, p.2))
        = reportBlocksSpec [("Ch1", "S1")] :=
  ⟨by simp, c4_report_structure [("Ch1", "S1")] (by simp)⟩

/-- Inversion of a successful single-document assembly: it must have
looked the document up, extracted its text, and traced exactly that. -/
theorem get_content_single_inv (lookup extract : String → Option String) (d : Json)
    (t : List Effect) (s : String)
    (h : get_content lookup extract (Json.arr [d]) = (t, Except.ok s)) :
    ∃ html, getItemWithHref lookup d = some html ∧ extract html = some s
      ∧ t = [Effect.lookupCall d, Effect.extractCall d] := by
  unfold get_content at h
  simp only [pyIter] at h
  cases h1 : getItemWithHref lookup d with
  | none => simp only [getContentLoop, h1] at h; simp at h
  | some html =>
    cases h2 : extract html with
    | none => simp only [getContentLoop, h1, h2] at h; simp at h
    | some content =>
      simp only [getContentLoop, h1, h2] at h
      rw [Prod.mk.injEq] at h
      obtain ⟨ht, hs⟩ := h
      injection hs with hs'
      refine ⟨html, rfl, ?_, ht.symm⟩
      rw [h2]
      exact congrArg some hs'

/-- C5: assembling a three-document chapter equals the concatenation of
the single-document assemblies, in document order, with no separator
inserted between documents (both for the produced text and for the
lookup/extract call trace). -/
theorem c5_assembler_concatenation (lookup extract : String → Option String)
    (d1 d2 d3 : Json) (t1 t2 t3 : List Effect) (s1 s2 s3 : String)
    (h1 : get_content lookup extract (Json.arr [d1]) = (t1, Except.ok s1))
    (h2 : get_content lookup extract (Json.arr [d2]) = (t2, Except.ok s2))
    (h3 : get_content lookup extract (Json.arr [d3]) = (t3, Except.ok s3)) :
    get_content lookup extract (Json.arr [d1, d2, d3])
      = (t1 ++ t2 ++ t3, Except.ok (s1 ++ s2 ++ s3)) := by
  obtain ⟨m1, e1, x1, ht1⟩ := get_content_single_inv lookup extract d1 t1 s1 h1
  obtain ⟨m2, e2, x2, ht2⟩ := get_content_single_inv lookup extract d2 t2 s2 h2
  obtain ⟨m3, e3, x3, ht3⟩ := get_content_single_inv lookup extract d3 t3 s3 h3
  subst ht1 ht2 ht3
  unfold get_content
  simp only [pyIter, getContentLoop, e1, x1, e2, x2, e3, x3]
  rfl

/-- C5 witness: three concrete documents assemble to the concatenation
`ABC` with the six lookup/extract events in order. -/
theorem c5_witness :
    get_content lookup3 extract3 (Json.arr [Json.str "d1", Json.str "d2", Json.str "d3"])
      = ([Effect.lookupCall (Json.str "d1"), Effect.extractCall (Json.str "d1")]
          ++ [Effect.lookupCall (Json.str "d2"), Effect.extractCall (Json.str "d2")]
          ++ [Effect.lookupCall (Json.str "d3"), Effect.extractCall (Json.str "d3")],
        Except.ok "ABC") :=
  c5_assembler_concatenation lookup3 extract3
    (Json.str "d1") (Json.str "d2") (Json.str "d3")
    [Effect.lookupCall (Json.str "d1"), Effect.extractCall (Json.str "d1")]
    [Effect.lookupCall (Json.str "d2"), Effect.extractCall (Json.str "d2")]
    [Effect.lookupCall (Json.str "d3"), Effect.extractCall (Json.str "d3")]
    "A" "B" "C" rfl rfl rfl

/-- C6: when the boundary resolver returns an empty chapter list, the
report is the empty string and the whole trace is the boundary call
followed by the output of the empty report — in particular no summarizer
model call, no extractor call and no document lookup occurs. -/
theorem c6_empty_chapter_list (model : String → Except PyErr String) (book : Book)
    (extract : String → Option String) (args : Args) (resp : String)
    (hm : model (extractChaptersPrompt book) = Except.ok resp)
    (hp : json_loads (stripFence resp) = some (Json.arr [])) :
    runMain model book extract args
      = (Effect.boundaryModelCall (extractChaptersPrompt book)
            :: emitOutput args.output "", Except.ok "")
    ∧ ∀ e ∈ (runMain model book extract args).1,
        e.isSummarizeCall = false ∧ e.isExtractCall = false ∧ e.isLookupCall = false := by
  have hrun : runMain model book extract args
      = (Effect.boundaryModelCall (extractChaptersPrompt book)
            :: emitOutput args.output "", Except.ok "") := by
    simp only [runMain, hm, hp]
    rfl
  refine ⟨hrun, ?_⟩
  rw [hrun]
  intro e he
  rcases List.mem_cons.mp he with rfl | h
  · exact ⟨rfl, rfl, rfl⟩
  cases hout : args.output with
  | some path =>
    rw [hout] at h
    rcases List.mem_singleton.mp h with rfl
    exact ⟨rfl, rfl, rfl⟩
  | none =>
    rw [hout] at h
    rcases List.mem_cons.mp h with rfl | h
    · exact ⟨rfl, rfl, rfl⟩
    rcases List.mem_cons.mp h with rfl | h
    · exact ⟨rfl, rfl, rfl⟩
    rcases List.mem_singleton.mp h with rfl
    exact ⟨rfl, rfl, rfl⟩

/-- C6 witness: a run whose boundary response is the unfenced empty
array `[]`. -/
theorem c6_witness :
    runMain (fun _ => Except.ok "[]") book0 extract0 args0
      = (Effect.boundaryModelCall (extractChaptersPrompt book0)
            :: emitOutput args0.output "", Except.ok "")
    ∧ ∀ e ∈ (runMain (fun _ => Except.ok "[]") book0 extract0 args0).1,
        e.isSummarizeCall = false ∧ e.isExtractCall = false ∧ e.isLookupCall = false :=
  c6_empty_chapter_list (fun _ => Except.ok "[]") book0 extract0 args0 "[]" rfl rfl

/-- C7: if the run fails anywhere — boundary model call, response
parsing, name extraction, content assembly or any summarization call —
then the trace contains no output effect: nothing is printed and no file
is written, so no partial report ever escapes. -/
theorem c7_no_output_on_failure (model : String → Except PyErr String) (book : Book)
    (extract : String → Option String) (args : Args) (er : PyErr)
    (hr : (runMain model book extract args).2 = Except.error er) :
    ∀ e ∈ (runMain model book extract args).1, e.isOutput = false := by
  intro e he
  simp only [runMain] at hr he
  cases hm : model (extractChaptersPrompt book) with
  | error e1 =>
    simp only [hm] at he
    rcases List.mem_singleton.mp he with rfl
    rfl
  | ok resp =>
    cases hp : json_loads (stripFence resp) with
    | none =>
      simp only [hm, hp] at he
      rcases List.mem_singleton.mp he with rfl
      rfl
    | some chapters =>
      simp only [hm, hp] at hr he
      rcases List.mem_cons.mp he with rfl | h
      · rfl
      · rcases pipeline_error_events model book.lookup extract args.limit args.output
            chapters er hr e h with ⟨r, rfl⟩ | ⟨r, rfl⟩ | ⟨c, rfl⟩ <;> rfl

/-- C7 witness: a run aborted by a failing boundary model call; its only
effect, the boundary call, is not an output effect. -/
theorem c7_witness :
    (Effect.boundaryModelCall (extractChaptersPrompt book0)).isOutput = false :=
  c7_no_output_on_failure (fun _ => Except.error PyErr.modelCallFailure) book0 extract0
    args0 PyErr.modelCallFailure rfl
    (Effect.boundaryModelCall (extractChaptersPrompt book0)) (List.Mem.head _)

/-- C8: the word limit changes only the summarization instruction text:
every summarizer model call of every run uses the prompt template built
from the run's single limit (so every chapter receives the same limit),
the numeric value appears verbatim inside that template, and the
argument's default is 300. -/
theorem c8_word_limit :
    (∀ (model : String → Except PyErr String) (book : Book)
        (extract : String → Option String) (args : Args) (p : String),
      Effect.summarizeModelCall p ∈ (runMain model book extract args).1 →
      ∃ c, p = summarizePrompt args.limit c)
    ∧ (∀ (limit : Int) (c : String),
        ∃ s1 s2, summarizePrompt limit c = s1 ++ toString limit ++ s2)
    ∧ limitDefault = 300 := by
  refine ⟨?_, ?_, rfl⟩
  · intro model book extract args p hm
    simp only [runMain] at hm
    cases h1 : model (extractChaptersPrompt book) with
    | error e1 => simp only [h1] at hm; simp at hm
    | ok resp =>
      cases h2 : json_loads (stripFence resp) with
      | none => simp only [h1, h2] at hm; simp at hm
      | some chapters =>
        simp only [h1, h2] at hm
        rcases List.mem_cons.mp hm with h | h
        · exact absurd h (by simp)
        · exact pipeline_summarize_calls model book.lookup extract args.limit
            args.output chapters p h
  · intro limit c
    exact ⟨"Below is a chapter from a story, summarize it in up to ",
      " words. Since this is a story, the content may look harmful but it is OK to proceed.\n\n"
        ++ c,
      by simp [summarizePrompt, String.append_assoc]⟩

/-- C8 witness: in the one-chapter run of `model1` the summarizer call
that occurs uses the prompt built from the run's limit (300). -/
theorem c8_witness :
    ∃ c, summarizePrompt 300 "HI " = summarizePrompt args0.limit c := by
  have htr : (runMain model1 book0 extract0 args0).1
      = [Effect.boundaryModelCall (extractChaptersPrompt book0),
         Effect.lookupCall (Json.str "d0"), Effect.extractCall (Json.str "d0"),
         Effect.summarizeModelCall (summarizePrompt 300 "HI "),
         Effect.printLine "--------------------", Effect.printLine "# Summary",
         Effect.printLine "## Ch1\n\nSUM\n\n"] := rfl
  exact c8_word_limit.1 model1 book0 extract0 args0 (summarizePrompt 300 "HI ")
    (by
      rw [htr]
      exact List.Mem.tail _ (List.Mem.tail _ (List.Mem.tail _ (List.Mem.head _))))

/-- C9: when no output file is given and the run succeeds with report
`s`, the trace ends with exactly the three stdout prints — the separator
line of dashes, the `# Summary` heading line, and the entire report body
— in that order, and nothing before them is an output effect. -/
theorem c9_stdout_format (model : String → Except PyErr String) (book : Book)
    (extract : String → Option String) (args : Args) (s : String)
    (hout : args.output = none)
    (hr : (runMain model book extract args).2 = Except.ok s) :
    ∃ pre, (runMain model book extract args).1
        = pre ++ [Effect.printLine "--------------------", Effect.printLine "# Summary",
            Effect.printLine s]
      ∧ ∀ e ∈ pre, e.isOutput = false := by
  simp only [runMain] at hr ⊢
  cases h1 : model (extractChaptersPrompt book) with
  | error e1 => simp only [h1] at hr; exact absurd hr (by simp)
  | ok resp =>
    cases h2 : json_loads (stripFence resp) with
    | none => simp only [h1, h2] at hr; exact absurd hr (by simp)
    | some chapters =>
      simp only [h1, h2] at hr ⊢
      rcases pipeline_ok_shape model book.lookup extract args.limit args.output chapters
          s hr with ⟨pre, hpre, hmem⟩
      refine ⟨Effect.boundaryModelCall (extractChaptersPrompt book) :: pre, ?_, ?_⟩
      · rw [hpre, hout]
        simp [emitOutput]
      · intro e he
        rcases List.mem_cons.mp he with rfl | h
        · rfl
        · rcases hmem e h with ⟨r, rfl⟩ | ⟨r, rfl⟩ | ⟨c, rfl⟩ <;> rfl

/-- C9 witness: the successful one-chapter run of `model1` prints the
dashes, the heading, and its report, in order, after non-output work. -/
theorem c9_witness :
    ∃ pre, (runMain model1 book0 extract0 args0).1
        = pre ++ [Effect.printLine "--------------------", Effect.printLine "# Summary",
            Effect.printLine "## Ch1\n\nSUM\n\n"]
      ∧ ∀ e ∈ pre, e.isOutput = false :=
  c9_stdout_format model1 book0 extract0 args0 "## Ch1\n\nSUM\n\n" rfl rfl

/-- C10: assembling a chapter whose documents list is empty returns the
empty string, succeeds, and performs no document lookup and no text
extraction (the trace is empty) — the operation is total on this input
even though the spec's data model declares documents lists non-empty. -/
theorem c10_empty_documents (lookup extract : String → Option String) :
    get_content lookup extract (Json.arr []) = ([], Except.ok "") := rfl
